import Mathlib

/-!
# Verification of the `count-write` byte-counting writer wrapper

Shallow embedding of `src/lib.rs` and `src/tokio.rs`.

The Rust crate provides `CountWrite<W> { inner: W, count: u64 }`, a
transparent wrapper around any writer `W` that counts the bytes the inner
writer reports as successfully written.  We model the inner writer
abstractly as a record of state-passing operations (Rust methods taking
`&mut self` become functions `state → result × state`), machine integers
as `Nat` with an explicit `% 2 ^ 64` where the `u64` counter arithmetic
happens, and `Result`/`Poll` as `Except`/an explicit `Poll` inductive.
-/

/-- Byte buffers (`&[u8]`): only length and identity matter for the claims. -/
abbrev Buf : Type := List Nat

/-- `2 ^ 64`, the modulus of Rust `u64` arithmetic. -/
def U64_MOD : Nat := 2 ^ 64

/-- The `std::io::Write` capability of the inner writer, state-passing:
`write` takes the writer state and a buffer and returns a
`Result<usize, E>` together with the updated state; `flush` likewise. -/
structure WriteImpl (W E : Type) where
  write : W → Buf → Except E Nat × W
  flush : W → Except E Unit × W

/-- Rust `core::task::Poll`. -/
inductive Poll (α : Type) where
  | Ready (a : α)
  | Pending
deriving DecidableEq, Repr

/-- The `tokio_io::AsyncWrite` capability of the inner writer,
state-passing; `C` is the type of the poll `Context` forwarded through. -/
structure AsyncWriteImpl (W E C : Type) where
  poll_write : W → C → Buf → Poll (Except E Nat) × W
  poll_flush : W → C → Poll (Except E Unit) × W
  poll_shutdown : W → C → Poll (Except E Unit) × W

/-- `CountWrite<W> { inner: W, count: u64 }` from `src/lib.rs`.
The `count` field is a `u64`; we carry it as a `Nat` that every
operation keeps below `U64_MOD`. -/
structure CountWrite (W : Type) where
  inner : W
  count : Nat
deriving DecidableEq, Repr

/-- `impl<W> From<W> for CountWrite<W>`: `Self { inner, count: 0 }`. -/
def CountWrite.fromWriter {W : Type} (inner : W) : CountWrite W :=
  { inner := inner, count := 0 }

/-- `CountWrite::into_inner`: `self.inner`. -/
def CountWrite.into_inner {W : Type} (cw : CountWrite W) : W :=
  cw.inner

/-- `CountWrite::write` from `src/lib.rs`:
`let written = self.inner.write(buf)?; self.count += written as u64; Ok(written)`.
The `?` propagates the inner error unchanged (the inner state update made
by the call persists), and on success the counter update is the `u64`
wrapping addition `self.count + (written as u64)`, i.e. modulo `2 ^ 64`. -/
def CountWrite.write {W E : Type} (ops : WriteImpl W E) (cw : CountWrite W)
    (buf : Buf) : Except E Nat × CountWrite W :=
  match ops.write cw.inner buf with
  | (Except.ok written, w) =>
      (Except.ok written,
        { inner := w, count := (cw.count + written % U64_MOD) % U64_MOD })
  | (Except.error e, w) => (Except.error e, { inner := w, count := cw.count })

/-- `CountWrite::flush` from `src/lib.rs`: `self.inner.flush()`. -/
def CountWrite.flush {W E : Type} (ops : WriteImpl W E) (cw : CountWrite W) :
    Except E Unit × CountWrite W :=
  match ops.flush cw.inner with
  | (r, w) => (r, { inner := w, count := cw.count })

/-- `CountWrite::poll_write` from `src/tokio.rs`: forward the poll to
`inner`; if the result is `Ready(Ok(written))`, do
`*count += *written as u64` before returning the inner result unchanged. -/
def CountWrite.poll_write {W E C : Type} (ops : AsyncWriteImpl W E C)
    (cw : CountWrite W) (ctx : C) (buf : Buf) :
    Poll (Except E Nat) × CountWrite W :=
  match ops.poll_write cw.inner ctx buf with
  | (Poll.Ready (Except.ok written), w) =>
      (Poll.Ready (Except.ok written),
        { inner := w, count := (cw.count + written % U64_MOD) % U64_MOD })
  | (r, w) => (r, { inner := w, count := cw.count })

/-- `CountWrite::poll_flush` from `src/tokio.rs`: pure forward to `inner`. -/
def CountWrite.poll_flush {W E C : Type} (ops : AsyncWriteImpl W E C)
    (cw : CountWrite W) (ctx : C) : Poll (Except E Unit) × CountWrite W :=
  match ops.poll_flush cw.inner ctx with
  | (r, w) => (r, { inner := w, count := cw.count })

/-- `CountWrite::poll_shutdown` from `src/tokio.rs`: pure forward to `inner`. -/
def CountWrite.poll_shutdown {W E C : Type} (ops : AsyncWriteImpl W E C)
    (cw : CountWrite W) (ctx : C) : Poll (Except E Unit) × CountWrite W :=
  match ops.poll_shutdown cw.inner ctx with
  | (r, w) => (r, { inner := w, count := cw.count })

/-- Run a sequence of wrapper `write` calls, collecting each call's
result and the final wrapper state. -/
def runWrites {W E : Type} (ops : WriteImpl W E) :
    CountWrite W → List Buf → List (Except E Nat) × CountWrite W
  | cw, [] => ([], cw)
  | cw, buf :: rest =>
      match CountWrite.write ops cw buf with
      | (r, cw1) =>
          match runWrites ops cw1 rest with
          | (rs, cwF) => (r :: rs, cwF)

/-- The `OnlyHalf` writer from the crate doc-test: accepts
`(buf.len() + 1) / 2` bytes per call and never fails.  Its state is the
number of times its `write` has been invoked, so that "inner was called
exactly once" is observable. -/
def onlyHalf : WriteImpl Nat Unit where
  write := fun s buf => (Except.ok ((buf.length + 1) / 2), s + 1)
  flush := fun s => (Except.ok (), s)

/-- An inner writer whose `write` always fails with a fixed error code,
leaving its state unchanged. -/
def failOps : WriteImpl Unit Nat where
  write := fun s _ => (Except.error 7, s)
  flush := fun s => (Except.ok (), s)

/-- A pathological but type-correct inner writer whose `write` always
reports `2 ^ 64 - 1` bytes written (the largest `usize` value). -/
def hugeOps : WriteImpl Unit Unit where
  write := fun s _ => (Except.ok (U64_MOD - 1), s)
  flush := fun s => (Except.ok (), s)

/-- A trivial synchronous inner writer: always writes 0 bytes, succeeds. -/
def zeroOps : WriteImpl Unit Unit where
  write := fun s _ => (Except.ok 0, s)
  flush := fun s => (Except.ok (), s)

/-- A trivial asynchronous inner writer: every poll is immediately
`Ready` and successful, writing 0 bytes. -/
def zeroAsyncOps : AsyncWriteImpl Unit Unit Unit where
  poll_write := fun s _ _ => (Poll.Ready (Except.ok 0), s)
  poll_flush := fun s _ => (Poll.Ready (Except.ok ()), s)
  poll_shutdown := fun s _ => (Poll.Ready (Except.ok ()), s)

/-- An asynchronous inner writer for Scenario C: state `0` means "first
poll still ahead".  The first `poll_write` returns `Pending`; a re-poll
returns `Ready(Ok(buffer length))`. -/
def pendingOnceOps : AsyncWriteImpl Nat Unit Unit where
  poll_write := fun s _ buf =>
    if s = 0 then (Poll.Pending, 1) else (Poll.Ready (Except.ok buf.length), s)
  poll_flush := fun s _ => (Poll.Ready (Except.ok ()), s)
  poll_shutdown := fun s _ => (Poll.Ready (Except.ok ()), s)

/-- The modulus of `u64` arithmetic is positive. -/
theorem U64_MOD_pos : 0 < U64_MOD := by
  decide

/-- Adding a value already reduced modulo `M` is the same as adding the
value itself: `(a + b % M) % M = (a + b) % M`. -/
theorem add_mod_mod_eq (a b M : Nat) : (a + b % M) % M = (a + b) % M := by
  have h : a + b % M ≡ a + b [MOD M] := (Nat.ModEq.refl a).add (Nat.mod_modEq b M)
  exact h

/-- Accumulating one `u64` wrapping addition inside a running wrapped sum:
`((a + b) % M + c) % M = (a + (b + c)) % M`. -/
theorem wrap_acc_eq (a b c M : Nat) :
    ((a + b) % M + c) % M = (a + (b + c)) % M := by
  have h : (a + b) % M + c ≡ a + b + c [MOD M] :=
    Nat.ModEq.add_right c (Nat.mod_modEq (a + b) M)
  rw [← Nat.add_assoc]
  exact h

/-- Core accounting lemma: if every write in a sequence succeeds with
byte-counts `ns`, the final counter is the initial counter plus the sum
of `ns`, modulo `2 ^ 64`. -/
theorem runWrites_count {W E : Type} (ops : WriteImpl W E) (bufs : List Buf) :
    ∀ (cw : CountWrite W) (ns : List Nat),
      (runWrites ops cw bufs).1 = ns.map Except.ok →
      cw.count < U64_MOD →
      (runWrites ops cw bufs).2.count = (cw.count + ns.sum) % U64_MOD := by
  induction bufs with
  | nil =>
      intro cw ns hok hlt
      have hns : ns = [] := by
        cases ns with
        | nil => rfl
        | cons x xs => simp [runWrites] at hok
      subst hns
      simpa [runWrites] using (Nat.mod_eq_of_lt hlt).symm
  | cons buf rest ih =>
      intro cw ns hok hlt
      rcases hw : ops.write cw.inner buf with ⟨r, w⟩
      cases r with
      | error e =>
          exfalso
          cases ns with
          | nil => simp [runWrites] at hok
          | cons x xs => simp [runWrites, CountWrite.write, hw] at hok
      | ok n =>
          cases ns with
          | nil => simp [runWrites, CountWrite.write, hw] at hok
          | cons m ms =>
              have hstep :
                  CountWrite.write ops cw buf =
                    (Except.ok n,
                      { inner := w,
                        count := (cw.count + n) % U64_MOD }) := by
                simp [CountWrite.write, hw]
              have hok2 :
                  (runWrites ops
                      { inner := w,
                        count := (cw.count + n) % U64_MOD } rest).1
                    = ms.map Except.ok ∧ n = m := by
                have hh := hok
                simp [runWrites, hstep] at hh
                exact ⟨hh.2, hh.1⟩
              have hlt2 : ((cw.count + n) % U64_MOD : Nat) < U64_MOD :=
                Nat.mod_lt _ U64_MOD_pos
              have hres := ih
                { inner := w, count := (cw.count + n) % U64_MOD }
                ms hok2.1 hlt2
              have hfin :
                  (runWrites ops cw (buf :: rest)).2 =
                    (runWrites ops
                      { inner := w,
                        count := (cw.count + n) % U64_MOD } rest).2 := by
                simp [runWrites, hstep]
              rw [hfin, hres, hok2.2, List.sum_cons, wrap_acc_eq]

/-- Claim C4: for every inner writer value `w`, construction
(`From<W> for CountWrite<W>`) sets the counter to zero, so `count()` on
the fresh wrapper returns `0`; construction is a total function of `w`
(no failure mode) producing exactly `{ inner := w, count := 0 }`. -/
theorem c4_construct_zero {W : Type} (w : W) :
    (CountWrite.fromWriter w).count = 0
    ∧ CountWrite.fromWriter w = { inner := w, count := 0 } :=
  ⟨rfl, rfl⟩

/-- Claim C9: construction followed by extraction is the identity on the
inner writer, and `into_inner` returns exactly the wrapper's current
`inner` field. -/
theorem c9_into_inner_identity {W : Type} (w : W) (cw : CountWrite W) :
    (CountWrite.fromWriter w).into_inner = w ∧ cw.into_inner = cw.inner :=
  ⟨rfl, rfl⟩

/-- Claim C6: `flush` forwards to the inner writer's `flush`, propagates
its result (success or failure) unchanged, updates the inner state to the
inner call's new state, and leaves the counter unchanged in all cases. -/
theorem c6_flush_frame {W E : Type} (ops : WriteImpl W E) (cw : CountWrite W) :
    (CountWrite.flush ops cw).1 = (ops.flush cw.inner).1
    ∧ (CountWrite.flush ops cw).2.count = cw.count
    ∧ (CountWrite.flush ops cw).2.inner = (ops.flush cw.inner).2 := by
  rcases hf : ops.flush cw.inner with ⟨r, w⟩
  simp [CountWrite.flush, hf]

/-- Claim C8: `poll_flush` and `poll_shutdown` are pure forwards to the
inner writer's corresponding operation: each returns the inner result
(`Ready` or `Pending`) unchanged, updates the inner state to the inner
call's new state, and never modifies the counter. -/
theorem c8_poll_flush_shutdown_frame {W E C : Type} (ops : AsyncWriteImpl W E C)
    (cw : CountWrite W) (ctx : C) :
    (CountWrite.poll_flush ops cw ctx).1 = (ops.poll_flush cw.inner ctx).1
    ∧ (CountWrite.poll_flush ops cw ctx).2.count = cw.count
    ∧ (CountWrite.poll_flush ops cw ctx).2.inner = (ops.poll_flush cw.inner ctx).2
    ∧ (CountWrite.poll_shutdown ops cw ctx).1 = (ops.poll_shutdown cw.inner ctx).1
    ∧ (CountWrite.poll_shutdown ops cw ctx).2.count = cw.count
    ∧ (CountWrite.poll_shutdown ops cw ctx).2.inner
        = (ops.poll_shutdown cw.inner ctx).2 := by
  rcases hf : ops.poll_flush cw.inner ctx with ⟨r, w⟩
  rcases hs : ops.poll_shutdown cw.inner ctx with ⟨r2, w2⟩
  simp [CountWrite.poll_flush, CountWrite.poll_shutdown, hf, hs]

/-- Claim C3: `poll_write` forwards the poll to the inner writer and
returns the inner result unchanged; on `Ready(Ok(n))` the `u64` counter
is incremented by `n` (the increment `count += n as u64` is the wrapping
addition of the 64-bit counter) before returning, while on `Pending` or
`Ready(Err(_))` the counter is unchanged.  The inner state always
advances to the state produced by the single inner poll.  Concretely
(Scenario C): polling a 3-byte buffer against an inner writer that first
reports `Pending` and on re-poll `Ready(Ok(3))` leaves `count` at `0`
after the first poll and at `3` after the second. -/
theorem c3_poll_write_forward {W E C : Type} (ops : AsyncWriteImpl W E C)
    (cw : CountWrite W) (ctx : C) (buf : Buf) :
    (CountWrite.poll_write ops cw ctx buf).1 = (ops.poll_write cw.inner ctx buf).1
    ∧ (CountWrite.poll_write ops cw ctx buf).2.inner
        = (ops.poll_write cw.inner ctx buf).2
    ∧ ((CountWrite.poll_write ops cw ctx buf).2.count
        = match (ops.poll_write cw.inner ctx buf).1 with
          | Poll.Ready (Except.ok n) => (cw.count + n % U64_MOD) % U64_MOD
          | Poll.Ready (Except.error _) => cw.count
          | Poll.Pending => cw.count)
    ∧ (CountWrite.poll_write pendingOnceOps
        (CountWrite.fromWriter 0) () [10, 11, 12]).2.count = 0
    ∧ (CountWrite.poll_write pendingOnceOps
        (CountWrite.poll_write pendingOnceOps
          (CountWrite.fromWriter 0) () [10, 11, 12]).2 () [10, 11, 12]).2.count
        = 3 := by
  refine ⟨?_, ?_, ?_, rfl, rfl⟩ <;>
    · rcases hp : ops.poll_write cw.inner ctx buf with ⟨r, w⟩
      cases r with
      | Ready res =>
          cases res with
          | ok n => simp [CountWrite.poll_write, hp]
          | error e => simp [CountWrite.poll_write, hp]
      | Pending => simp [CountWrite.poll_write, hp]

/-- Claim C5: a single wrapper `write` call invokes the inner writer's
`write` exactly once — the wrapper's new inner state is the state after
one inner call — and returns the inner result unchanged, even for a short
write.  Concretely, against the `OnlyHalf` inner writer (accepting
`ceil(n/2)` bytes per call, with call-counting state), one write of a
3-byte buffer from a fresh wrapper returns `Ok(2)`, sets `count` to `2`,
and leaves the inner call counter at exactly `1`. -/
theorem c5_no_retry {W E : Type} (ops : WriteImpl W E) (cw : CountWrite W)
    (buf : Buf) :
    ((CountWrite.write ops cw buf).1 = (ops.write cw.inner buf).1
    ∧ (CountWrite.write ops cw buf).2.inner = (ops.write cw.inner buf).2)
    ∧ CountWrite.write onlyHalf (CountWrite.fromWriter 0) [10, 11, 12]
        = (Except.ok 2, { inner := 1, count := 2 }) := by
  constructor
  · rcases hw : ops.write cw.inner buf with ⟨r, w⟩
    cases r with
    | ok n => simp [CountWrite.write, hw]
    | error e => simp [CountWrite.write, hw]
  · rfl

/-- Claim C2: if the inner writer's `write` returns an error `e` (with
updated inner state `w`), the wrapper's `write` returns exactly that
error and the counter is unchanged. -/
theorem c2_error_isolation {W E : Type} (ops : WriteImpl W E)
    (cw : CountWrite W) (buf : Buf) (e : E) (w : W)
    (h : ops.write cw.inner buf = (Except.error e, w)) :
    CountWrite.write ops cw buf
      = (Except.error e, { inner := w, count := cw.count }) := by
  simp [CountWrite.write, h]

/-- Witness for C2 at a concrete failing inner writer. -/
theorem c2_error_isolation_witness :
    CountWrite.write failOps (CountWrite.fromWriter ()) [1, 2]
      = (Except.error 7, { inner := (), count := 0 }) :=
  c2_error_isolation failOps (CountWrite.fromWriter ()) [1, 2] 7 () rfl

/-- Claim C1 (amended): for a freshly constructed wrapper and a sequence
of write calls in which every inner write succeeds returning byte-counts
`ns = [n1, …, nk]`, after all calls `count()` equals `n1 + … + nk`,
provided that total stays below `2 ^ 64` (the counter is a `u64` and each
increment is a wrapping 64-bit addition, so beyond `2 ^ 64 - 1` the
counter holds the sum only modulo `2 ^ 64`). -/
theorem c1_additivity {W E : Type} (ops : WriteImpl W E) (w : W)
    (bufs : List Buf) (ns : List Nat)
    (hok : (runWrites ops (CountWrite.fromWriter w) bufs).1 = ns.map Except.ok)
    (hlt : ns.sum < U64_MOD) :
    (runWrites ops (CountWrite.fromWriter w) bufs).2.count = ns.sum := by
  have h := runWrites_count ops bufs (CountWrite.fromWriter w) ns hok U64_MOD_pos
  simpa [CountWrite.fromWriter, Nat.mod_eq_of_lt hlt] using h

/-- Witness for C1 (amended): one successful 3-byte write through
`OnlyHalf` from a fresh wrapper gives `count() = [2].sum = 2`. -/
theorem c1_additivity_witness :
    (runWrites onlyHalf (CountWrite.fromWriter 0) [[10, 11, 12]]).2.count
      = [2].sum :=
  c1_additivity onlyHalf 0 [[10, 11, 12]] [2] rfl (by decide)

/-- Counterexample to C1 as stated: against an inner writer whose writes
succeed returning `2 ^ 64 - 1` each time, two write calls on a fresh
wrapper are a sequence of successful writes with byte-counts
`[2 ^ 64 - 1, 2 ^ 64 - 1]`, yet the final `count()` is
`2 ^ 64 - 2`, not the sum `2 ^ 65 - 2`: the `u64` counter wrapped. -/
theorem c1_additivity_counterexample :
    (runWrites hugeOps (CountWrite.fromWriter ()) [[0], [0]]).1
        = [U64_MOD - 1, U64_MOD - 1].map Except.ok
    ∧ (runWrites hugeOps (CountWrite.fromWriter ()) [[0], [0]]).2.count
        ≠ [U64_MOD - 1, U64_MOD - 1].sum := by
  exact ⟨rfl, by decide⟩

/-- Claim C7 (amended): the counter never decreases across any wrapper
operation — `flush`, `poll_flush` and `poll_shutdown` leave it exactly
unchanged (`count()` and `into_inner` read state without mutating it),
and `write` / `poll_write` leave it unchanged or increase it — provided
that a successful write's increment does not overflow the `u64` counter
(`count + n < 2 ^ 64`).  Without that proviso the wrapping addition can
make the counter decrease. -/
theorem c7_monotonic {W E W2 E2 C : Type} (opsS : WriteImpl W E)
    (opsA : AsyncWriteImpl W2 E2 C) (cw : CountWrite W) (cw2 : CountWrite W2)
    (buf buf2 : Buf) (ctx : C)
    (hs : ∀ n, (opsS.write cw.inner buf).1 = Except.ok n →
      cw.count + n < U64_MOD)
    (ha : ∀ n, (opsA.poll_write cw2.inner ctx buf2).1 = Poll.Ready (Except.ok n) →
      cw2.count + n < U64_MOD) :
    cw.count ≤ (CountWrite.write opsS cw buf).2.count
    ∧ (CountWrite.flush opsS cw).2.count = cw.count
    ∧ cw2.count ≤ (CountWrite.poll_write opsA cw2 ctx buf2).2.count
    ∧ (CountWrite.poll_flush opsA cw2 ctx).2.count = cw2.count
    ∧ (CountWrite.poll_shutdown opsA cw2 ctx).2.count = cw2.count := by
  refine ⟨?_, ?_, ?_, ?_, ?_⟩
  · rcases hw : opsS.write cw.inner buf with ⟨r, w⟩
    cases r with
    | ok n =>
        have hlt : cw.count + n < U64_MOD := hs n (by rw [hw])
        have : (cw.count + n % U64_MOD) % U64_MOD = cw.count + n := by
          rw [add_mod_mod_eq]
          exact Nat.mod_eq_of_lt hlt
        simp [CountWrite.write, hw, this]
    | error e => simp [CountWrite.write, hw]
  · rcases hf : opsS.flush cw.inner with ⟨r, w⟩
    simp [CountWrite.flush, hf]
  · rcases hp : opsA.poll_write cw2.inner ctx buf2 with ⟨r, w⟩
    cases r with
    | Ready res =>
        cases res with
        | ok n =>
            have hlt : cw2.count + n < U64_MOD := ha n (by rw [hp])
            have : (cw2.count + n % U64_MOD) % U64_MOD = cw2.count + n := by
              rw [add_mod_mod_eq]
              exact Nat.mod_eq_of_lt hlt
            simp [CountWrite.poll_write, hp, this]
        | error e => simp [CountWrite.poll_write, hp]
    | Pending => simp [CountWrite.poll_write, hp]
  · rcases hf : opsA.poll_flush cw2.inner ctx with ⟨r, w⟩
    simp [CountWrite.poll_flush, hf]
  · rcases hf : opsA.poll_shutdown cw2.inner ctx with ⟨r, w⟩
    simp [CountWrite.poll_shutdown, hf]

/-- Witness for C7 (amended) at trivial zero-byte inner writers. -/
theorem c7_monotonic_witness :
    (CountWrite.fromWriter ()).count
        ≤ (CountWrite.write zeroOps (CountWrite.fromWriter ()) []).2.count
    ∧ (CountWrite.flush zeroOps (CountWrite.fromWriter ())).2.count
        = (CountWrite.fromWriter ()).count
    ∧ (CountWrite.fromWriter ()).count
        ≤ (CountWrite.poll_write zeroAsyncOps
            (CountWrite.fromWriter ()) () []).2.count
    ∧ (CountWrite.poll_flush zeroAsyncOps
        (CountWrite.fromWriter ()) ()).2.count = (CountWrite.fromWriter ()).count
    ∧ (CountWrite.poll_shutdown zeroAsyncOps
        (CountWrite.fromWriter ()) ()).2.count
        = (CountWrite.fromWriter ()).count := by
  refine c7_monotonic zeroOps zeroAsyncOps (CountWrite.fromWriter ())
    (CountWrite.fromWriter ()) [] [] () ?_ ?_
  · intro n h
    have hn : n = 0 := by
      have h0 : Except.ok (ε := Unit) 0 = Except.ok n := h
      exact (Except.ok.inj h0).symm
    subst hn
    decide
  · intro n h
    have hn : n = 0 := by
      have h0 : Poll.Ready (Except.ok (ε := Unit) 0)
          = Poll.Ready (Except.ok n) := h
      exact (Except.ok.inj (Poll.Ready.inj h0)).symm
    subst hn
    decide

/-- Counterexample to C7 as stated: reachable wrapper states can see the
counter decrease.  Starting from a fresh wrapper over the writer that
reports `2 ^ 64 - 1` bytes per successful write, the first write leaves
`count = 2 ^ 64 - 1`; the second write wraps the `u64` counter around to
`2 ^ 64 - 2`, strictly below its previous value. -/
theorem c7_monotonic_counterexample :
    ((CountWrite.write hugeOps
        (CountWrite.write hugeOps (CountWrite.fromWriter ()) [0]).2 [0]).2).count
      < ((CountWrite.write hugeOps (CountWrite.fromWriter ()) [0]).2).count := by
  decide

/-- Claim C10: the counter increments are unchecked 64-bit additions.
Each successful `write` returning `Ok(n)` and each `poll_write`
returning `Ready(Ok(m))` updates the counter to exactly
`(count + n) % 2 ^ 64` (resp. `(count + m) % 2 ^ 64`); consequently the
additivity guarantee holds exactly whenever the cumulative total of
successfully written bytes stays below `2 ^ 64`. -/
theorem c10_wrapping_add {W E W2 E2 C : Type} (opsS : WriteImpl W E)
    (opsA : AsyncWriteImpl W2 E2 C) (cw : CountWrite W) (cw2 : CountWrite W2)
    (buf buf2 : Buf) (ctx : C) (n m : Nat) (w : W) (w2 : W2) (v : W)
    (bufs : List Buf) (ns : List Nat)
    (h1 : opsS.write cw.inner buf = (Except.ok n, w))
    (h2 : opsA.poll_write cw2.inner ctx buf2 = (Poll.Ready (Except.ok m), w2))
    (h3 : (runWrites opsS (CountWrite.fromWriter v) bufs).1 = ns.map Except.ok)
    (h4 : ns.sum < U64_MOD) :
    (CountWrite.write opsS cw buf).2.count = (cw.count + n) % U64_MOD
    ∧ (CountWrite.poll_write opsA cw2 ctx buf2).2.count
        = (cw2.count + m) % U64_MOD
    ∧ (runWrites opsS (CountWrite.fromWriter v) bufs).2.count = ns.sum := by
  refine ⟨?_, ?_, ?_⟩
  · simp [CountWrite.write, h1]
  · simp [CountWrite.poll_write, h2]
  · have h := runWrites_count opsS bufs (CountWrite.fromWriter v) ns h3 U64_MOD_pos
    simpa [CountWrite.fromWriter, Nat.mod_eq_of_lt h4] using h

/-- Witness for C10 at concrete inner writers: a successful 3-byte
`OnlyHalf` write, a zero-byte `Ready(Ok(0))` poll, and a one-element
successful sequence. -/
theorem c10_wrapping_add_witness :
    (CountWrite.write onlyHalf (CountWrite.fromWriter 0) [10, 11, 12]).2.count
        = ((CountWrite.fromWriter 0).count + 2) % U64_MOD
    ∧ (CountWrite.poll_write zeroAsyncOps
        (CountWrite.fromWriter ()) () []).2.count
        = ((CountWrite.fromWriter ()).count + 0) % U64_MOD
    ∧ (runWrites onlyHalf (CountWrite.fromWriter 0) [[10, 11, 12]]).2.count
        = [2].sum :=
  c10_wrapping_add onlyHalf zeroAsyncOps (CountWrite.fromWriter 0)
    (CountWrite.fromWriter ()) [10, 11, 12] [] () 2 0 1 () 0 [[10, 11, 12]] [2]
    rfl rfl rfl (by decide)
